import Mathlib

/-!
Verification development for the Mount Diablo Challenge race-data pipeline.

The repository scrapes per-finisher race results from a paginated results
site, joins them with hourly weather observations, stores both in a
year-scoped store, and computes per-year statistics plus a cross-year
correlation.  This file gives a shallow embedding of the relevant Python
functions (src/scraper.py, src/weather.py, src/database.py,
src/analysis.py, dashboard_data.py) and proves properties of that
embedding.

Modelling conventions:
* Python `str` is modelled by `String` or `List Char`; `int` by `ℤ`;
  `float` by `ℚ` (the values handled by the pipeline are decimal literals
  and sums/products thereof, which rationals represent exactly; non-finite
  floats such as `inf`/`nan` and IEEE rounding are outside the model).
* `None` / fallible operations are modelled by `Option`.
* SQLite tables are modelled by Lean lists of typed rows; the SQL
  `DELETE ... WHERE year = ?` becomes a list filter, `INSERT` an append,
  `COUNT(*) WHERE year = ?` a `countP`.
-/

namespace Diablo

/-! ### Python string primitives

`str.strip()`, `str.split(':')`, `int(...)`, `float(...)`, `str.isdigit()`
as used by the scraper.  `int`/`float` literal parsing follows Python's
grammar for base-10 literals: surrounding whitespace, an optional sign,
digit runs that may contain single underscores between digits, and for
`float` an optional fractional part and exponent.  Unicode digits and the
non-finite literals `inf`/`infinity`/`nan` are outside the model. -/

/-- Whitespace characters stripped by Python's `str.strip()` (ASCII part). -/
def pyIsSpace (c : Char) : Bool :=
  c = ' ' || c = '\t' || c = '\n' || c = '\x0d' || c = '\x0b' || c = '\x0c'

/-- Python `str.strip()`: drop whitespace from both ends. -/
def pyStrip (cs : List Char) : List Char :=
  ((cs.dropWhile pyIsSpace).reverse.dropWhile pyIsSpace).reverse

/-- Python `s.split(':')`: split at every colon; always returns at least
one (possibly empty) segment. -/
def splitColon : List Char → List (List Char)
  | [] => [[]]
  | c :: rest =>
    match splitColon rest with
    | s :: ss => if c = ':' then [] :: s :: ss else (c :: s) :: ss
    | [] => [[c]]

/-- Numeric value of a decimal digit character. -/
def digitVal (c : Char) : ℕ := c.toNat - '0'.toNat

/-- Consume a maximal run of decimal digits possibly separated by single
underscores (PEP 515).  Returns the accumulated value, the number of
digits consumed, and the remaining characters; `none` if an underscore is
not surrounded by digits. -/
def digitRun : ℕ → ℕ → List Char → Option (ℕ × ℕ × List Char)
  | acc, cnt, '_' :: d :: rest =>
    if cnt = 0 then some (acc, cnt, '_' :: d :: rest)
    else if d.isDigit then digitRun (10 * acc + digitVal d) (cnt + 1) rest
    else none
  | acc, cnt, ['_'] =>
    if cnt = 0 then some (acc, cnt, ['_']) else none
  | acc, cnt, c :: rest =>
    if c.isDigit then digitRun (10 * acc + digitVal c) (cnt + 1) rest
    else some (acc, cnt, c :: rest)
  | acc, cnt, [] => some (acc, cnt, [])

/-- Optional leading sign; returns the sign as `1` or `-1` and the rest. -/
def takeSign : List Char → ℤ × List Char
  | '+' :: rest => (1, rest)
  | '-' :: rest => (-1, rest)
  | cs => (1, cs)

/-- Python `int(s)` on a string: strip, optional sign, nonempty digit run,
nothing else. -/
def pyInt (cs : List Char) : Option ℤ :=
  let t := pyStrip cs
  let (sgn, r) := takeSign t
  match digitRun 0 0 r with
  | some (v, cnt, []) => if cnt = 0 then none else some (sgn * v)
  | _ => none

/-- Python `float(s)` on a string holding a finite decimal literal:
strip, optional sign, integer digits, optional `.` and fraction digits
(at least one digit overall), optional exponent. -/
def pyFloat (cs : List Char) : Option ℚ :=
  let t := pyStrip cs
  let (sgn, r) := takeSign t
  match digitRun 0 0 r with
  | none => none
  | some (iv, ic, r1) =>
    let fracStep : Option (ℕ × ℕ × List Char) :=
      match r1 with
      | '.' :: r2 => digitRun 0 0 r2
      | _ => some (0, 0, r1)
    match fracStep with
    | none => none
    | some (fv, fc, r3) =>
      if ic + fc = 0 then none
      else
        let mant : ℚ := (sgn : ℚ) * ((iv : ℚ) + (fv : ℚ) / 10 ^ fc)
        match r3 with
        | [] => some mant
        | e :: r4 =>
          if e = 'e' || e = 'E' then
            let (esgn, r5) := takeSign r4
            match digitRun 0 0 r5 with
            | some (ev, ec, []) =>
              if ec = 0 then none
              else if esgn = 1 then some (mant * 10 ^ ev)
              else some (mant / 10 ^ ev)
            | _ => none
          else none

/-- Python `str.isdigit()` restricted to ASCII: nonempty and all digits. -/
def pyIsDigitStr (s : String) : Bool :=
  !s.data.isEmpty && s.data.all Char.isDigit

/-- Value of a nonempty all-digit string (what `int` returns on it). -/
def digitsToNat (s : String) : ℕ :=
  s.data.foldl (fun acc c => 10 * acc + digitVal c) 0

/-- `str.strip()` on `String`. -/
def stripStr (s : String) : String := ⟨pyStrip s.data⟩

/-! ### DurationParser — `DiabloScraper.parse_chip_time` (scraper.py:90-111)

```python
if not time_str or time_str.strip() == '': return None
time_str = time_str.strip()
try:
    parts = time_str.split(':')
    if len(parts) == 3:
        return int(parts[0])*3600 + int(parts[1])*60 + float(parts[2])
    elif len(parts) == 2:
        return int(parts[0])*60 + float(parts[1])
except Exception:
    return None
```
A failed `int`/`float` conversion raises and is caught (→ `None`); a
segment count other than 2 or 3 falls through (→ `None`). -/

/-- Core of `parse_chip_time` on a character list. -/
def parseChipTimeCore (cs : List Char) : Option ℚ :=
  if pyStrip cs = [] then none
  else
    match splitColon (pyStrip cs) with
    | [h, m, s] =>
      match pyInt h, pyInt m, pyFloat s with
      | some hh, some mm, some ss => some ((hh : ℚ) * 3600 + (mm : ℚ) * 60 + ss)
      | _, _, _ => none
    | [m, s] =>
      match pyInt m, pyFloat s with
      | some mm, some ss => some ((mm : ℚ) * 60 + ss)
      | _, _ => none
    | _ => none

/-- `DiabloScraper.parse_chip_time`: chip-time text → elapsed seconds. -/
def parse_chip_time (s : String) : Option ℚ := parseChipTimeCore s.data

/-! ### ResultsPageParser — `DiabloScraper.parse_results_table` (scraper.py:113-168)

A fetched page's results table is modelled as `Option (List (List String))`:
`none` when `soup.find('table', id='resultsTable')` fails, otherwise the
list of `<tr>` rows, each a list of `<td>` cell texts.  The code skips the
header row (`[1:]`), skips rows with fewer than 13 cells, and maps fixed
column positions to fields.  `place` and `age` become integers only when
the cell text `isdigit()`; the ASCII `isdigit` model makes the guarded
`int()` conversions total, so the per-row `try/except` has no failing
path in the model. -/

structure RaceResult where
  year : ℤ
  race_date : Option String
  place : Option ℤ
  name : String
  team : String
  city_state : String
  gender : String
  gender_place : String
  age : Option ℤ
  age_place : String
  chip_time_str : String
  chip_time_seconds : Option ℚ
  pace : String
  start_time : String
deriving DecidableEq, Repr

/-- Parse one data row (`<td>` cell texts) of the results table. -/
def parse_results_row (year : ℤ) (cells : List String) : Option RaceResult :=
  if cells.length < 13 then none
  else
    let cell := fun i => stripStr (cells.getD i "")
    let place := cell 0
    let age := cell 6
    let chip := cell 9
    some ⟨year, none,
      if pyIsDigitStr place then some (digitsToNat place) else none,
      cell 1, cell 2, cell 3, cell 4, cell 5,
      if pyIsDigitStr age then some (digitsToNat age) else none,
      cell 7, chip, parse_chip_time chip, cell 10, cell 12⟩

/-- `DiabloScraper.parse_results_table`: all rows of one page, header
skipped, short rows skipped. -/
def parse_results_table (table : Option (List (List String))) (year : ℤ) :
    List RaceResult :=
  match table with
  | none => []
  | some trs => (trs.drop 1).filterMap (parse_results_row year)

/-! ### PaginationCrawler — `DiabloScraper.scrape_year` (scraper.py:170-234)

A fetched page is its results table plus the presence of the
`soup.find('a', text='Next >')` anchor.  The server's successive responses
are modelled as a list of pages: the head is what the initial year-URL GET
returns, each later element is what the corresponding pagination POST
returns; an exhausted list models a failed request.  The race date
(`get_race_date`, a regex scan of the page text) is passed in as an
`Option String` and attached to every parsed row, as the loop body does.
The returned pair is (accumulated results, number of pages fetched:
the initial GET plus one per pagination POST). -/

structure Page where
  table : Option (List (List String))
  hasNext : Bool
deriving DecidableEq, Repr

/-- `result['race_date'] = race_date` applied to a parsed row. -/
def setRaceDate (rd : Option String) (r : RaceResult) : RaceResult :=
  { r with race_date := rd }

/-- The `while page_num <= max_pages` loop of `scrape_year`.  `budget` is
the number of loop iterations still allowed, `cur` the current page,
`future` the remaining server responses. -/
def crawlGo (rd : Option String) (year : ℤ) :
    ℕ → Page → List Page → List RaceResult × ℕ
  | 0, _, _ => ([], 0)
  | budget + 1, cur, future =>
    let pageResults := (parse_results_table cur.table year).map (setRaceDate rd)
    if pageResults.isEmpty then ([], 0)
    else if !cur.hasNext then (pageResults, 0)
    else
      match future with
      | [] => (pageResults, 1)
      | p :: rest =>
        match crawlGo rd year budget p rest with
        | (rs, f) => (pageResults ++ rs, 1 + f)

/-- `DiabloScraper.scrape_year`: initial GET (one fetch) then the
pagination loop with `max_pages = 100` in the source; the bound is a
parameter here. -/
def scrape_year (year : ℤ) (rd : Option String) (maxPages : ℕ)
    (pages : List Page) : List RaceResult × ℕ :=
  match pages with
  | [] => ([], 0)
  | p :: rest =>
    match crawlGo rd year maxPages p rest with
    | (rs, f) => (rs, 1 + f)

/-! ### WeatherWindowJoiner — `WeatherFetcher` (weather.py:89-168)

The Open-Meteo response's `hourly` object is parallel arrays keyed by
variable name.  A timestamp is modelled by its date part (abstract tag)
and its local hour, which is all `datetime.fromisoformat(...).hour`
inspects.  `config.RACE_START_HOUR = 7`, `config.RACE_END_HOUR = 11`. -/

structure Timestamp where
  day : ℕ
  hour : ℕ
deriving DecidableEq, Repr

def RACE_START_HOUR : ℕ := 7
def RACE_END_HOUR : ℕ := 11

/-- The chained comparison `RACE_START_HOUR <= hour <= RACE_END_HOUR`. -/
def inWindow (t : Timestamp) : Bool :=
  RACE_START_HOUR ≤ t.hour && t.hour ≤ RACE_END_HOUR

structure HourlyData where
  time : List Timestamp
  temperature_2m : List ℚ
  windspeed_10m : List ℚ
  winddirection_10m : List ℚ
  wind_gusts_10m : List ℚ
deriving DecidableEq

/-- One record built inside `extract_race_window_data`, before
`fetch_weather_for_race` adds year, race date and location. -/
structure RawWeather where
  timestamp : Timestamp
  temperature_2m : Option ℚ
  windspeed_10m : Option ℚ
  winddirection_10m : Option ℚ
  wind_gusts_10m : Option ℚ
deriving DecidableEq, Repr

/-- `WeatherFetcher.extract_race_window_data`: keep the hours inside the
race window; a variable array shorter than the timestamp array yields
`none` fields (`temps[i] if i < len(temps) else None`). -/
def extract_race_window_data (hourly : Option HourlyData) : List RawWeather :=
  match hourly with
  | none => []
  | some h =>
    h.time.enum.filterMap fun it =>
      if inWindow it.2 then
        some ⟨it.2, h.temperature_2m.get? it.1, h.windspeed_10m.get? it.1,
          h.winddirection_10m.get? it.1, h.wind_gusts_10m.get? it.1⟩
      else none

/-- One stored hourly weather observation (row of `weather_data`). -/
structure WeatherRow where
  year : ℤ
  race_date : String
  timestamp : Timestamp
  location : String
  temperature_2m : Option ℚ
  windspeed_10m : Option ℚ
  winddirection_10m : Option ℚ
  wind_gusts_10m : Option ℚ
deriving DecidableEq, Repr

/-- `WeatherFetcher.fetch_weather_for_race`: extract the race window and
tag every record with year, race date and location.  The provider
response (or a failed fetch, `none`) is passed in. -/
def fetch_weather_for_race (year : ℤ) (race_date : String) (location : String)
    (hourly : Option HourlyData) : List WeatherRow :=
  (extract_race_window_data hourly).map fun r =>
    ⟨year, race_date, r.timestamp, location, r.temperature_2m, r.windspeed_10m,
      r.winddirection_10m, r.wind_gusts_10m⟩

/-! ### YearReplaceStore — `DiabloDatabase` (database.py)

The two tables are lists of typed rows; `year` is `NOT NULL` in the
schema, so stored rows carry a plain `ℤ` year.  `DELETE ... WHERE
year = ?` is a filter, `INSERT` an append, `COUNT(*)` a `countP`.
The `if r.get('year')` filter that collects the years to replace is
Python truthiness: a year of `None` or `0` is skipped; with `year : ℤ`
that is the `year ≠ 0` test. -/

structure DiabloDB where
  race_results : List RaceResult
  weather_data : List WeatherRow
deriving DecidableEq

/-- `DiabloDatabase.year_exists` (database.py:121-132): counts rows of
the `race_results` table only. -/
def year_exists (db : DiabloDB) (year : ℤ) : Bool :=
  db.race_results.any fun r => r.year == year

/-- `y` is in `set(r.get('year') for r in results if r.get('year'))`. -/
def yearTruthyIn (results : List RaceResult) (y : ℤ) : Bool :=
  results.any fun r => r.year == y && !(r.year == 0)

/-- Same collection for a weather batch. -/
def weatherYearTruthyIn (records : List WeatherRow) (y : ℤ) : Bool :=
  records.any fun r => r.year == y && !(r.year == 0)

/-- `DiabloDatabase.insert_race_results` (database.py:134-183): when
`replace_existing` and the batch is nonempty, delete the rows of every
truthy year of the batch (each delete guarded by `year_exists`, queried
on the pre-insert state), then append the batch. -/
def insert_race_results (db : DiabloDB) (results : List RaceResult)
    (replace_existing : Bool) : DiabloDB :=
  let kept :=
    if replace_existing && !results.isEmpty then
      db.race_results.filter fun row =>
        !(yearTruthyIn results row.year && year_exists db row.year)
    else db.race_results
  ⟨kept ++ results, db.weather_data⟩

/-- `DiabloDatabase.insert_weather_data` (database.py:185-230): same
shape, but each `DELETE FROM weather_data WHERE year = ?` is guarded by
`year_exists`, which queries the `race_results` table. -/
def insert_weather_data (db : DiabloDB) (records : List WeatherRow)
    (replace_existing : Bool) : DiabloDB :=
  let kept :=
    if replace_existing && !records.isEmpty then
      db.weather_data.filter fun row =>
        !(weatherYearTruthyIn records row.year && year_exists db row.year)
    else db.weather_data
  ⟨db.race_results, kept ++ records⟩

/-- `SELECT COUNT(*) FROM race_results WHERE year = ?`. -/
def countRaceYear (db : DiabloDB) (y : ℤ) : ℕ :=
  db.race_results.countP fun r => r.year == y

/-- `SELECT COUNT(*) FROM weather_data WHERE year = ?`. -/
def countWeatherYear (db : DiabloDB) (y : ℤ) : ℕ :=
  db.weather_data.countP fun r => r.year == y

/-! ### Percentiles — storage layer vs analysis layer

`DiabloDatabase.get_percentiles_by_year` (database.py:274-300) reads the
year's non-null chip times sorted ascending (`ORDER BY
chip_time_seconds`) and takes `times[int(len(times)*p/100)]`, clamped to
the last index — a nearest-rank percentile.

`DiabloAnalyzer.calculate_yearly_statistics` (analysis.py:54-82)
aggregates the same values with pandas: `median`, `x.quantile(0.25)`,
`x.quantile(0.75)` — linear interpolation between order statistics. -/

/-- Insert into an ascending-sorted list. -/
def insertSorted (x : ℚ) : List ℚ → List ℚ
  | [] => [x]
  | y :: ys => if x ≤ y then x :: y :: ys else y :: insertSorted x ys

/-- Ascending sort (the SQL `ORDER BY` / pandas internal sort). -/
def sortAsc (l : List ℚ) : List ℚ := l.foldr insertSorted []

/-- `DiabloDatabase.get_percentiles_by_year` on a year's non-null chip
times: `{}` on no rows, else `p ↦ times[min(int(n*p/100), n-1)]` over the
sorted times.  `int(n*p/100)` truncates the true quotient, which for
nonnegative operands is floor division. -/
def get_percentiles_by_year (chipTimes : List ℚ) (percentiles : List ℕ) :
    List (ℕ × ℚ) :=
  let times := sortAsc chipTimes
  if times.isEmpty then []
  else percentiles.map fun p =>
    (p, times.getD (min (times.length * p / 100) (times.length - 1)) 0)

/-- pandas `Series.quantile(q)` with the default linear interpolation:
`pos = (n-1)*q`, interpolate between the order statistics at
`floor pos` and `floor pos + 1`. -/
def pandas_quantile (values : List ℚ) (q : ℚ) : ℚ :=
  let s := sortAsc values
  let n := s.length
  if n = 0 then 0
  else
    let pos : ℚ := ((n : ℚ) - 1) * q
    let lo := (Int.floor pos).toNat
    let frac : ℚ := pos - (lo : ℚ)
    s.getD lo 0 + frac * (s.getD (lo + 1) 0 - s.getD lo 0)

/-- The (p25, median, p75) triple of `calculate_yearly_statistics` for
one year's non-null chip times. -/
def calculate_yearly_statistics_q (chipTimes : List ℚ) : ℚ × ℚ × ℚ :=
  (pandas_quantile chipTimes (25 / 100),
   pandas_quantile chipTimes (50 / 100),
   pandas_quantile chipTimes (75 / 100))

/-! ### CorrelationCalculator — `calculate_correlation` (dashboard_data.py:33-46)

`np.corrcoef` over the index pairs where both series are non-null,
rounded to three decimals.  The correlation involves a real square root,
so the result lives in `ℝ` and the definitions below are noncomputable;
the centered sums underneath stay in `ℚ`.  Python's `round` breaks ties
to even; `round` here rounds half up — the two agree off ties, and no
claim exercises a tie. -/

/-- The index pairs where both values are present. -/
def valid_pairs (xs ys : List (Option ℚ)) : List (ℚ × ℚ) :=
  (xs.zip ys).filterMap fun p =>
    match p with
    | (some a, some b) => some (a, b)
    | _ => none

/-- Sample covariance of two coordinates of the pair list, as computed by
`np.cov` inside `np.corrcoef`: `(Σ fg − Σf·Σg/n)/(n−1)`. -/
def sampleCov (ps : List (ℚ × ℚ)) (f g : ℚ × ℚ → ℚ) : ℚ :=
  let n : ℚ := ps.length
  ((ps.map fun p => f p * g p).sum - (ps.map f).sum * (ps.map g).sum / n) / (n - 1)

/-- `np.corrcoef(x, y)[0, 1] = c01 / (sqrt c00 * sqrt c11)`. -/
noncomputable def pearson_r (ps : List (ℚ × ℚ)) : ℝ :=
  (sampleCov ps Prod.fst Prod.snd : ℝ) /
    (Real.sqrt (sampleCov ps Prod.fst Prod.fst) *
      Real.sqrt (sampleCov ps Prod.snd Prod.snd))

/-- `round(x, 3)`. -/
noncomputable def round3 (x : ℝ) : ℝ := (round (x * 1000) : ℤ) / 1000

/-- `calculate_correlation`: `None` below two valid pairs, else the
rounded Pearson coefficient. -/
noncomputable def calculate_correlation (xs ys : List (Option ℚ)) : Option ℝ :=
  let ps := valid_pairs xs ys
  if ps.length < 2 then none else some (round3 (pearson_r ps))

/-! ### Concrete instances used by witnesses and counterexamples -/

/-- A database with both tables empty. -/
def emptyDB : DiabloDB := ⟨[], []⟩

/-- A race-result row whose year is `0` — an integer year that Python
truthiness treats as absent in `if r.get('year')`. -/
def rowYearZero : RaceResult :=
  ⟨0, none, none, "", "", "", "", "", none, "", "", none, "", ""⟩

/-- A race-result row for year 2024. -/
def rowYear2024 : RaceResult :=
  ⟨2024, none, some 1, "Ann", "T", "CA", "F", "1", some 30, "2", "5:30",
    some 330, "p", "r"⟩

/-- A weather row for year 2021. -/
def weatherRow2021 : WeatherRow :=
  ⟨2021, "2021-10-03", ⟨0, 7⟩, "start", none, none, none, none⟩

/-- Result-table cells whose chip-time text `"0:-1"` parses to a negative
number of seconds. -/
def cellsNegChip : List String :=
  ["1", "Bob", "", "CA", "M", "1", "30", "2", "", "0:-1", "5:00", "", "8:00"]

/-- A well-formed result-table data row. -/
def cellsOk : List String :=
  ["1", "Ann", "T", "CA", "F", "1", "30", "2", "x", "5:30", "p", "q", "r"]

/-- A results page holding a header row and one data row. -/
def pageOk (next : Bool) : Page := ⟨some [["hdr"], cellsOk], next⟩

/-- 24 hourly timestamps of one day. -/
def hours24 : List Timestamp := (List.range 24).map fun h => ⟨0, h⟩

/-- Hourly data: 24 timestamps with full-length parallel arrays. -/
def hourly24 : HourlyData :=
  ⟨hours24, (List.range 24).map fun n => (n : ℚ),
    (List.range 24).map fun n => (n : ℚ),
    (List.range 24).map fun n => (n : ℚ),
    (List.range 24).map fun n => (n : ℚ)⟩

/-- Hourly data whose temperature array (3 entries) is shorter than the
24-entry timestamp array, the other arrays empty. -/
def hourlyShort : HourlyData := ⟨hours24, [1, 2, 3], [], [], []⟩

/-- The hour-7 record of the window join over `hourly24`. -/
def weatherRow7 : WeatherRow :=
  ⟨2024, "2024-10-06", ⟨0, 7⟩, "start", some 7, some 7, some 7, some 7⟩

/-! # Theorems -/

/-! ## Shared helper lemmas about the duration parser -/

/-- If the stripped text splits into a list that is not a singleton, the
stripped text is nonempty (`splitColon []` is the single segment `[[]]`). -/
theorem pyStrip_ne_nil_of_split {cs : List Char} {ls : List (List Char)}
    (h : splitColon (pyStrip cs) = ls) (hlen : ls.length ≠ 1) :
    pyStrip cs ≠ [] := by
  intro hnil
  rw [hnil] at h
  apply hlen
  rw [← h]
  rfl

/-- Two-segment success case of `parse_chip_time`. -/
theorem parse_chip_time_two (s : String) (a b : List Char) (m : ℤ) (sec : ℚ)
    (hsplit : splitColon (pyStrip s.data) = [a, b])
    (hm : pyInt a = some m) (hsec : pyFloat b = some sec) :
    parse_chip_time s = some ((m : ℚ) * 60 + sec) := by
  have hne : pyStrip s.data ≠ [] := pyStrip_ne_nil_of_split hsplit (by simp)
  simp only [parse_chip_time, parseChipTimeCore, if_neg hne, hsplit, hm, hsec]

/-- Three-segment success case of `parse_chip_time`. -/
theorem parse_chip_time_three (s : String) (a b c : List Char)
    (hh mm : ℤ) (sec : ℚ)
    (hsplit : splitColon (pyStrip s.data) = [a, b, c])
    (h1 : pyInt a = some hh) (h2 : pyInt b = some mm)
    (h3 : pyFloat c = some sec) :
    parse_chip_time s = some ((hh : ℚ) * 3600 + (mm : ℚ) * 60 + sec) := by
  have hne : pyStrip s.data ≠ [] := pyStrip_ne_nil_of_split hsplit (by simp)
  simp only [parse_chip_time, parseChipTimeCore, if_neg hne, hsplit, h1, h2, h3]

/-- Concrete evaluation: `float("30") == 30.0`. -/
theorem pyFloat_30 : pyFloat ['3', '0'] = some 30 := by
  have hstrip : pyStrip ['3', '0'] = ['3', '0'] := by decide
  have hsign : takeSign ['3', '0'] = (1, ['3', '0']) := by decide
  have hrun : digitRun 0 0 ['3', '0'] = some (30, 2, []) := by decide
  simp only [pyFloat, hstrip, hsign, hrun]
  norm_num

/-! ## C1 — DurationParser -/

/-- Claim C1: `parse_chip_time` returns `none` on empty or
whitespace-only text; on a trimmed text with exactly two colon-separated
segments, an integer first segment and a numeric second segment, it
returns `minutes*60 + seconds`; on three such segments it returns
`hours*3600 + minutes*60 + seconds`; any other shape, or a segment that
fails numeric parsing, yields `none` (the model is total, so no
exception escapes); and `"1:02:03.5" ↦ 3723.5`, `"5:30" ↦ 330.0`,
`"" ↦ none`, `"bad" ↦ none`. -/
theorem C1_parse_chip_time :
    (∀ s : String, pyStrip s.data = [] → parse_chip_time s = none)
    ∧ (∀ (s : String) (a b : List Char) (m : ℤ) (sec : ℚ),
        splitColon (pyStrip s.data) = [a, b] →
        pyInt a = some m → pyFloat b = some sec →
        parse_chip_time s = some ((m : ℚ) * 60 + sec))
    ∧ (∀ (s : String) (a b c : List Char) (hh mm : ℤ) (sec : ℚ),
        splitColon (pyStrip s.data) = [a, b, c] →
        pyInt a = some hh → pyInt b = some mm → pyFloat c = some sec →
        parse_chip_time s = some ((hh : ℚ) * 3600 + (mm : ℚ) * 60 + sec))
    ∧ (∀ (s : String) (a b : List Char),
        splitColon (pyStrip s.data) = [a, b] →
        pyInt a = none ∨ pyFloat b = none → parse_chip_time s = none)
    ∧ (∀ (s : String) (a b c : List Char),
        splitColon (pyStrip s.data) = [a, b, c] →
        pyInt a = none ∨ pyInt b = none ∨ pyFloat c = none →
        parse_chip_time s = none)
    ∧ (∀ s : String, (splitColon (pyStrip s.data)).length ≠ 2 →
        (splitColon (pyStrip s.data)).length ≠ 3 → parse_chip_time s = none)
    ∧ parse_chip_time "1:02:03.5" = some (7447 / 2)
    ∧ parse_chip_time "5:30" = some 330
    ∧ parse_chip_time "" = none
    ∧ parse_chip_time "bad" = none := by
  refine ⟨?e, parse_chip_time_two, parse_chip_time_three, ?twoF, ?threeF,
    ?shape, ?c1, ?c2, rfl, ?c4⟩
  case e =>
    intro s h
    simp [parse_chip_time, parseChipTimeCore, h]
  case twoF =>
    intro s a b hsplit hor
    have hne : pyStrip s.data ≠ [] := pyStrip_ne_nil_of_split hsplit (by simp)
    rcases hor with h | h
    · simp only [parse_chip_time, parseChipTimeCore, if_neg hne, hsplit, h]
    · cases hpa : pyInt a <;>
        simp only [parse_chip_time, parseChipTimeCore, if_neg hne, hsplit, hpa, h]
  case threeF =>
    intro s a b c hsplit hor
    have hne : pyStrip s.data ≠ [] := pyStrip_ne_nil_of_split hsplit (by simp)
    rcases hor with h | h | h
    · simp only [parse_chip_time, parseChipTimeCore, if_neg hne, hsplit, h]
    · cases hpa : pyInt a <;>
        simp only [parse_chip_time, parseChipTimeCore, if_neg hne, hsplit, hpa, h]
    · cases hpa : pyInt a <;> cases hpb : pyInt b <;>
        simp only [parse_chip_time, parseChipTimeCore, if_neg hne, hsplit,
          hpa, hpb, h]
  case shape =>
    intro s h2 h3
    by_cases hnil : pyStrip s.data = []
    · simp [parse_chip_time, parseChipTimeCore, hnil]
    · rcases hsp : splitColon (pyStrip s.data) with
        _ | ⟨x, _ | ⟨y, _ | ⟨z, _ | ⟨w, rest⟩⟩⟩⟩
      · simp [parse_chip_time, parseChipTimeCore, if_neg hnil, hsp]
      · simp [parse_chip_time, parseChipTimeCore, if_neg hnil, hsp]
      · exact absurd (by rw [hsp]; rfl) h2
      · exact absurd (by rw [hsp]; rfl) h3
      · simp [parse_chip_time, parseChipTimeCore, if_neg hnil, hsp]
  case c1 =>
    simp [parse_chip_time, parseChipTimeCore, pyStrip, pyIsSpace, splitColon,
      pyInt, pyFloat, digitRun, digitVal, takeSign]
    norm_num
  case c2 =>
    simp [parse_chip_time, parseChipTimeCore, pyStrip, pyIsSpace, splitColon,
      pyInt, pyFloat, digitRun, digitVal, takeSign]
    norm_num
  case c4 =>
    simp [parse_chip_time, parseChipTimeCore, pyStrip, pyIsSpace, splitColon]

/-- Witness for C1: the two-segment case at the concrete input
`"7:30"`. -/
theorem C1_witness : parse_chip_time "7:30" = some 450 := by
  have h := C1_parse_chip_time.2.1 "7:30" ['7'] ['3', '0'] 7 30
    (by decide) (by decide) pyFloat_30
  rw [h]
  norm_num

end Diablo
namespace Diablo

/-- Counterexample to C7: the parsing layer accepts `"0:-1"` as a chip
time and stores the negative value `-1` in `chip_time_seconds`. -/
theorem C7_counterexample :
    (parse_results_row 2024 cellsNegChip).map (fun r => r.chip_time_seconds)
      = some (some (-1)) ∧ ¬ (0 : ℚ) ≤ -1 := by
  constructor
  · have hchip : parse_chip_time "0:-1" = some (-1) := by
      simp [parse_chip_time, parseChipTimeCore, pyStrip, pyIsSpace, splitColon,
        pyInt, pyFloat, digitRun, digitVal, takeSign]
    have hstrip : stripStr "0:-1" = "0:-1" := by decide
    simp [parse_results_row, cellsNegChip, hstrip, hchip]
  · norm_num

/-- Claim C7 amended: every row the parsing layer produces has
`chip_time_seconds = parse_chip_time chip_time_str` — so the value is a
deterministic function of the raw chip-time text — and the value is
non-negative whenever each parsed segment is non-negative; the parser
itself accepts negative segments (see the counterexample), so
non-negativity does not hold for arbitrary text. -/
theorem C7_amended :
    (∀ (year : ℤ) (cells : List String) (r : RaceResult),
        parse_results_row year cells = some r →
        r.chip_time_seconds = parse_chip_time r.chip_time_str)
    ∧ (∀ (s : String) (a b : List Char) (m : ℤ) (sec : ℚ),
        splitColon (pyStrip s.data) = [a, b] →
        pyInt a = some m → pyFloat b = some sec → 0 ≤ m → 0 ≤ sec →
        ∃ v, parse_chip_time s = some v ∧ 0 ≤ v)
    ∧ (∀ (s : String) (a b c : List Char) (hh mm : ℤ) (sec : ℚ),
        splitColon (pyStrip s.data) = [a, b, c] →
        pyInt a = some hh → pyInt b = some mm → pyFloat c = some sec →
        0 ≤ hh → 0 ≤ mm → 0 ≤ sec →
        ∃ v, parse_chip_time s = some v ∧ 0 ≤ v) := by
  refine ⟨?rows, ?two, ?three⟩
  case rows =>
    intro year cells r h
    by_cases hlen : cells.length < 13
    · simp [parse_results_row, hlen] at h
    · simp only [parse_results_row, if_neg hlen, Option.some.injEq] at h
      rw [← h]
  case two =>
    intro s a b m sec hsplit hm hsec hm0 hsec0
    refine ⟨(m : ℚ) * 60 + sec, parse_chip_time_two s a b m sec hsplit hm hsec, ?_⟩
    have hmq : (0 : ℚ) ≤ (m : ℚ) := by exact_mod_cast hm0
    exact add_nonneg (mul_nonneg hmq (by norm_num)) hsec0
  case three =>
    intro s a b c hh mm sec hsplit h1 h2 h3 hh0 hm0 hs0
    refine ⟨(hh : ℚ) * 3600 + (mm : ℚ) * 60 + sec,
      parse_chip_time_three s a b c hh mm sec hsplit h1 h2 h3, ?_⟩
    have e1 : (0 : ℚ) ≤ (hh : ℚ) := by exact_mod_cast hh0
    have e2 : (0 : ℚ) ≤ (mm : ℚ) := by exact_mod_cast hm0
    exact add_nonneg (add_nonneg (mul_nonneg e1 (by norm_num))
      (mul_nonneg e2 (by norm_num))) hs0

/-- Witness for C7: the amended non-negativity at `"7:30"`, and the
derivation property at a concrete parsed row. -/
theorem C7_witness :
    (∃ v, parse_chip_time "7:30" = some v ∧ 0 ≤ v)
    ∧ rowYear2024.chip_time_seconds = parse_chip_time rowYear2024.chip_time_str := by
  constructor
  · exact C7_amended.2.1 "7:30" ['7'] ['3', '0'] 7 30 (by decide) (by decide)
      pyFloat_30 (by norm_num) (by norm_num)
  · have h : parse_results_row 2024 cellsOk = some rowYear2024 := by
      have hchip : parse_chip_time "5:30" = some 330 := by
        simp [parse_chip_time, parseChipTimeCore, pyStrip, pyIsSpace, splitColon,
          pyInt, pyFloat, digitRun, digitVal, takeSign]
        norm_num
      simp [parse_results_row, cellsOk, rowYear2024, stripStr, pyStrip, pyIsSpace,
        pyIsDigitStr, digitsToNat, digitVal, hchip]
    exact C7_amended.1 2024 cellsOk rowYear2024 h

end Diablo
namespace Diablo

/-! ## C5 — PaginationCrawler -/

/-- Loop-body evaluation: a page with no parsed rows ends the loop. -/
theorem crawlGo_empty (rd : Option String) (year : ℤ) (b : ℕ) (cur : Page)
    (fut : List Page) (h : parse_results_table cur.table year = []) :
    crawlGo rd year (b + 1) cur fut = ([], 0) := by
  simp [crawlGo, h]

/-- Loop-body evaluation: rows but no next-page anchor. -/
theorem crawlGo_last (rd : Option String) (year : ℤ) (b : ℕ) (cur : Page)
    (fut : List Page) (hres : parse_results_table cur.table year ≠ [])
    (hn : cur.hasNext = false) :
    crawlGo rd year (b + 1) cur fut
      = ((parse_results_table cur.table year).map (setRaceDate rd), 0) := by
  have hie : ((parse_results_table cur.table year).map (setRaceDate rd)).isEmpty
      = false := by
    cases hpt : parse_results_table cur.table year with
    | nil => exact absurd hpt hres
    | cons x xs => rfl
  simp [crawlGo, hie, hn]

/-- Loop-body evaluation: rows and a next-page anchor cause one
pagination POST and a recursive step on the response. -/
theorem crawlGo_step (rd : Option String) (year : ℤ) (b : ℕ) (cur p : Page)
    (rest : List Page) (hres : parse_results_table cur.table year ≠ [])
    (hn : cur.hasNext = true) :
    crawlGo rd year (b + 1) cur (p :: rest)
      = ((parse_results_table cur.table year).map (setRaceDate rd)
            ++ (crawlGo rd year b p rest).1,
          1 + (crawlGo rd year b p rest).2) := by
  have hie : ((parse_results_table cur.table year).map (setRaceDate rd)).isEmpty
      = false := by
    cases hpt : parse_results_table cur.table year with
    | nil => exact absurd hpt hres
    | cons x xs => rfl
  rcases hc : crawlGo rd year b p rest with ⟨rs, f⟩
  simp [crawlGo, hie, hn, hc]

/-- `scrape_year` on a successful initial GET: one fetch plus the loop. -/
theorem scrape_year_cons (year : ℤ) (rd : Option String) (maxP : ℕ)
    (p : Page) (rest : List Page) :
    scrape_year year rd maxP (p :: rest)
      = ((crawlGo rd year maxP p rest).1, 1 + (crawlGo rd year maxP p rest).2) := by
  rcases hc : crawlGo rd year maxP p rest with ⟨rs, f⟩
  simp [scrape_year, hc]

/-- Claim C5: with pages 1 and 2 nonempty and carrying a next link and
page 3 lacking it, the crawl performs exactly 3 fetches and returns the
concatenation of the three pages' rows in order; and the loop stops
(after its single fetch) on a page that yields zero rows. -/
theorem C5_pagination :
    (∀ (year : ℤ) (rd : Option String) (p1 p2 p3 : Page),
      parse_results_table p1.table year ≠ [] → p1.hasNext = true →
      parse_results_table p2.table year ≠ [] → p2.hasNext = true →
      p3.hasNext = false →
      scrape_year year rd 100 [p1, p2, p3]
        = ((parse_results_table p1.table year).map (setRaceDate rd)
            ++ ((parse_results_table p2.table year).map (setRaceDate rd)
              ++ (parse_results_table p3.table year).map (setRaceDate rd)),
           3))
    ∧ (∀ (year : ℤ) (rd : Option String) (q : Page) (rest : List Page),
      parse_results_table q.table year = [] →
      scrape_year year rd 100 (q :: rest) = ([], 1)) := by
  constructor
  · intro year rd p1 p2 p3 h1 hn1 h2 hn2 hn3
    rw [scrape_year_cons]
    rw [show (100 : ℕ) = 99 + 1 from rfl, crawlGo_step rd year 99 p1 p2 [p3] h1 hn1]
    rw [show (99 : ℕ) = 98 + 1 from rfl, crawlGo_step rd year 98 p2 p3 [] h2 hn2]
    by_cases h3 : parse_results_table p3.table year = []
    · rw [show (98 : ℕ) = 97 + 1 from rfl, crawlGo_empty rd year 97 p3 [] h3]
      simp [h3]
    · rw [show (98 : ℕ) = 97 + 1 from rfl, crawlGo_last rd year 97 p3 [] h3 hn3]
      simp
  · intro year rd q rest h
    rw [scrape_year_cons]
    rw [show (100 : ℕ) = 99 + 1 from rfl, crawlGo_empty rd year 99 q rest h]
    simp

/-- Witness for C5: three concrete pages, each with one data row, the
third without a next link: 3 fetches, 2 accumulated rows (the third page
has an absent table). -/
theorem C5_witness :
    (scrape_year 2024 none 100 [pageOk true, pageOk true, ⟨none, false⟩]).2 = 3
    ∧ (scrape_year 2024 none 100 [pageOk true, pageOk true, ⟨none, false⟩]).1.length
        = 2 := by
  have hne : parse_results_table (pageOk true).table 2024 ≠ [] := by
    simp [parse_results_table, pageOk, parse_results_row, cellsOk]
  have h := C5_pagination.1 2024 none (pageOk true) (pageOk true) ⟨none, false⟩
    hne rfl hne rfl rfl
  rw [h]
  refine ⟨rfl, ?_⟩
  simp [parse_results_table, pageOk, parse_results_row, cellsOk]

end Diablo
namespace Diablo

/-! ## C6, C9 — WeatherWindowJoiner -/

/-- The window filterMap over an enumerated list, projected back to
timestamps, is the plain window filter of the list. -/
theorem filterMap_window_map_timestamp
    (g : ℕ → Timestamp → RawWeather) (hg : ∀ i t, (g i t).timestamp = t) :
    ∀ (n : ℕ) (l : List Timestamp),
      ((List.enumFrom n l).filterMap fun it =>
          if inWindow it.2 then some (g it.1 it.2) else none).map
        RawWeather.timestamp = l.filter inWindow
  | _, [] => by simp [List.enumFrom]
  | n, t :: ts => by
    by_cases hw : inWindow t
    · simp [List.enumFrom, hw, hg,
        filterMap_window_map_timestamp g hg (n + 1) ts]
    · simp [List.enumFrom, hw,
        filterMap_window_map_timestamp g hg (n + 1) ts]

/-- The extracted records are exactly the in-window timestamps, in
order. -/
theorem extract_timestamps (h : HourlyData) :
    (extract_race_window_data (some h)).map RawWeather.timestamp
      = h.time.filter inWindow := by
  have hmain := filterMap_window_map_timestamp
    (fun i t => ⟨t, h.temperature_2m.get? i, h.windspeed_10m.get? i,
      h.winddirection_10m.get? i, h.wind_gusts_10m.get? i⟩)
    (fun _ _ => rfl) 0 h.time
  simpa [extract_race_window_data, List.enum] using hmain

/-- Claim C6: the window join returns one record per in-window timestamp,
in input (timestamp) order, each tagged with the supplied year, race date
and location; on 24 hourly entries with window [7,11] it returns exactly
the 5 records for hours 7–11. -/
theorem C6_weather_window :
    (∀ (h : HourlyData) (year : ℤ) (rd loc : String),
      ((fetch_weather_for_race year rd loc (some h)).map WeatherRow.timestamp
          = h.time.filter inWindow)
      ∧ ∀ r ∈ fetch_weather_for_race year rd loc (some h),
          r.year = year ∧ r.race_date = rd ∧ r.location = loc)
    ∧ ((fetch_weather_for_race 2024 "2024-10-06" "start" (some hourly24)).map
          (fun r => r.timestamp.hour) = [7, 8, 9, 10, 11])
    ∧ (fetch_weather_for_race 2024 "2024-10-06" "start" (some hourly24)).length
        = 5 := by
  refine ⟨fun h year rd loc => ⟨?ts, ?tag⟩, ?conc, ?len⟩
  case ts =>
    rw [fetch_weather_for_race, List.map_map]
    exact extract_timestamps h
  case tag =>
    intro r hr
    simp only [fetch_weather_for_race, List.mem_map] at hr
    obtain ⟨r', _, rfl⟩ := hr
    exact ⟨rfl, rfl, rfl⟩
  case conc => decide
  case len => decide

/-- Witness for C6: the record at hour 7 of the concrete 24-hour input is
tagged with the supplied year, race date and location. -/
theorem C6_witness :
    weatherRow7.year = 2024 ∧ weatherRow7.race_date = "2024-10-06"
      ∧ weatherRow7.location = "start" :=
  (C6_weather_window.1 hourly24 2024 "2024-10-06" "start").2 weatherRow7
    (by decide)

/-- An element reachable by `get?` appears in the enumeration with its
index. -/
theorem mem_enumFrom_of_get? {α : Type} :
    ∀ (l : List α) (n i : ℕ) (x : α),
      l.get? i = some x → (n + i, x) ∈ List.enumFrom n l
  | [], _, i, x, h => by simp at h
  | a :: l, n, 0, x, h => by
    simp at h
    simp [List.enumFrom, h]
  | a :: l, n, i + 1, x, h => by
    have h' : l.get? i = some x := h
    have hmem := mem_enumFrom_of_get? l (n + 1) i x h'
    rw [show n + (i + 1) = (n + 1) + i from by omega]
    exact List.mem_cons_of_mem _ hmem

/-- Claim C9: for every in-window timestamp index, the join yields a
record whose variable fields are the safe lookups `array.get? i`; in
particular any variable array shorter than the timestamp array
contributes `none` (never an index error — the model is total). -/
theorem C9_short_arrays :
    ∀ (h : HourlyData) (i : ℕ) (t : Timestamp),
      h.time.get? i = some t → inWindow t = true →
      ∃ r, r ∈ extract_race_window_data (some h)
        ∧ r.timestamp = t
        ∧ r.temperature_2m = h.temperature_2m.get? i
        ∧ r.windspeed_10m = h.windspeed_10m.get? i
        ∧ r.winddirection_10m = h.winddirection_10m.get? i
        ∧ r.wind_gusts_10m = h.wind_gusts_10m.get? i
        ∧ (h.temperature_2m.length ≤ i → r.temperature_2m = none)
        ∧ (h.windspeed_10m.length ≤ i → r.windspeed_10m = none)
        ∧ (h.winddirection_10m.length ≤ i → r.winddirection_10m = none)
        ∧ (h.wind_gusts_10m.length ≤ i → r.wind_gusts_10m = none) := by
  intro h i t hget hw
  refine ⟨⟨t, h.temperature_2m.get? i, h.windspeed_10m.get? i,
    h.winddirection_10m.get? i, h.wind_gusts_10m.get? i⟩, ?_, rfl, rfl, rfl,
    rfl, rfl, ?_, ?_, ?_, ?_⟩
  · have hmem : (i, t) ∈ h.time.enum := by
      have hm := mem_enumFrom_of_get? h.time 0 i t hget
      simpa [List.enum] using hm
    simp only [extract_race_window_data]
    exact List.mem_filterMap.mpr ⟨(i, t), hmem, by simp [hw]⟩
  · intro hle
    exact List.get?_eq_none.mpr hle
  · intro hle
    exact List.get?_eq_none.mpr hle
  · intro hle
    exact List.get?_eq_none.mpr hle
  · intro hle
    exact List.get?_eq_none.mpr hle

/-- Witness for C9: with a 3-entry temperature array against 24
timestamps, the in-window record at index 8 has a `none` temperature. -/
theorem C9_witness :
    ∃ r, r ∈ extract_race_window_data (some hourlyShort)
      ∧ r.timestamp = ⟨0, 8⟩ ∧ r.temperature_2m = none := by
  obtain ⟨r, hmem, hts, _, _, _, _, htemp, _, _, _⟩ :=
    C9_short_arrays hourlyShort 8 ⟨0, 8⟩ (by decide) (by decide)
  exact ⟨r, hmem, hts, htemp (by decide)⟩

end Diablo
namespace Diablo

/-! ## C3, C4, C10 — YearReplaceStore -/

/-- Replace-insert for a truthy year that occurs in the batch: afterwards
the year's stored row count is exactly its count in the batch. -/
theorem countRaceYear_insert_replace (db : DiabloDB) (B : List RaceResult)
    (y : ℤ) (hy : y ≠ 0) (hmem : ∃ r ∈ B, r.year = y) :
    countRaceYear (insert_race_results db B true) y
      = B.countP fun r => r.year == y := by
  obtain ⟨r0, hr0B, hr0y⟩ := hmem
  have hBne : B.isEmpty = false := by
    cases B with
    | nil => simp at hr0B
    | cons a l => rfl
  have htr : yearTruthyIn B y = true := by
    rw [yearTruthyIn, List.any_eq_true]
    exact ⟨r0, hr0B, by simp [hr0y, hy]⟩
  simp only [insert_race_results, hBne, Bool.not_false, Bool.and_true,
    if_true, countRaceYear, List.countP_append]
  have hzero : (db.race_results.filter fun row =>
      !(yearTruthyIn B row.year && year_exists db row.year)).countP
        (fun r => r.year == y) = 0 := by
    rw [List.countP_eq_zero]
    intro a ha hpa
    obtain ⟨haDb, hq⟩ := List.mem_filter.mp ha
    have hay : a.year = y := by simpa using hpa
    have hex : year_exists db y = true := by
      rw [year_exists, List.any_eq_true]
      exact ⟨a, haDb, by simp [hay]⟩
    rw [hay, htr, hex] at hq
    simp at hq
  rw [hzero]
  omega

/-- Counterexample to C3: a batch whose rows carry the integer year `0`
(falsy in Python) is never treated as an existing year, so re-ingesting
it with replace enabled duplicates the rows. -/
theorem C3_counterexample :
    countRaceYear (insert_race_results
        (insert_race_results emptyDB [rowYearZero] true) [rowYearZero] true) 0 = 2
    ∧ countRaceYear (insert_race_results emptyDB [rowYearZero] true) 0 = 1 := by
  decide

/-- Claim C3 amended: for a batch containing a row of a nonzero year
`y`, replace-insert first deletes every stored row of year `y`, leaving
exactly the batch's rows of that year; hence re-ingesting the same batch
with replace enabled leaves the year's row count unchanged.  (For the
falsy year `0` the deletion is skipped; see the counterexample.) -/
theorem C3_amended :
    ∀ (db : DiabloDB) (B : List RaceResult) (y : ℤ),
      y ≠ 0 → (∃ r ∈ B, r.year = y) →
      countRaceYear (insert_race_results db B true) y
          = B.countP (fun r => r.year == y)
      ∧ countRaceYear
            (insert_race_results (insert_race_results db B true) B true) y
          = countRaceYear (insert_race_results db B true) y := by
  intro db B y hy hmem
  have h1 := countRaceYear_insert_replace db B y hy hmem
  have h2 := countRaceYear_insert_replace (insert_race_results db B true) B y hy hmem
  exact ⟨h1, by rw [h1, h2]⟩

/-- Witness for C3: a one-row year-2024 batch, ingested twice with
replace, keeps the year's count at 1. -/
theorem C3_witness :
    countRaceYear (insert_race_results emptyDB [rowYear2024] true) 2024 = 1
    ∧ countRaceYear (insert_race_results
          (insert_race_results emptyDB [rowYear2024] true) [rowYear2024] true) 2024
        = countRaceYear (insert_race_results emptyDB [rowYear2024] true) 2024 := by
  have h := C3_amended emptyDB [rowYear2024] 2024 (by norm_num)
    ⟨rowYear2024, by simp, rfl⟩
  refine ⟨?_, h.2⟩
  rw [h.1]
  decide

/-- Claim C4 evaluated at the failing input: with an empty race-results
table, the weather delete is skipped (its guard `year_exists` queries the
race table), so re-ingesting one 2021 weather row with replace enabled
leaves two copies — re-ingestion is not idempotent there. -/
theorem C4_weather_guard_bug :
    countWeatherYear (insert_weather_data
        (insert_weather_data emptyDB [weatherRow2021] true)
        [weatherRow2021] true) 2021 = 2
    ∧ countWeatherYear (insert_weather_data emptyDB [weatherRow2021] true) 2021 = 1
    ∧ year_exists emptyDB 2021 = false := by
  decide

/-- Claim C10: rows whose year is not a year of the incoming batch are
untouched by `insert_race_results`, for either value of
`replace_existing`: filtering the table to those rows gives the same
list, in order, before and after the insert (deletion only touches batch
years, and insertion only appends batch rows). -/
theorem C10_frame :
    ∀ (db : DiabloDB) (B : List RaceResult) (rep : Bool),
      (insert_race_results db B rep).race_results.filter
          (fun r => !(B.any fun b => b.year == r.year))
        = db.race_results.filter (fun r => !(B.any fun b => b.year == r.year)) := by
  intro db B rep
  have hkeep : ∀ a : RaceResult, a ∈ B →
      (!(B.any fun b => b.year == a.year)) = false := by
    intro a ha
    have h : (B.any fun b => b.year == a.year) = true :=
      List.any_eq_true.mpr ⟨a, ha, by simp⟩
    rw [h]
    rfl
  have hBnil : B.filter (fun r => !(B.any fun b => b.year == r.year)) = [] := by
    rw [List.filter_eq_nil_iff]
    intro a ha
    rw [hkeep a ha]
    simp
  have hq : ∀ a : RaceResult, (!(B.any fun b => b.year == a.year)) = true →
      (!(yearTruthyIn B a.year && year_exists db a.year)) = true := by
    intro a ha
    have hany : (B.any fun b => b.year == a.year) = false := by
      cases hh : (B.any fun b => b.year == a.year) with
      | false => rfl
      | true => rw [hh] at ha; exact absurd ha (by simp)
    have htr : yearTruthyIn B a.year = false := by
      cases hh : yearTruthyIn B a.year with
      | false => rfl
      | true =>
        exfalso
        rw [yearTruthyIn, List.any_eq_true] at hh
        obtain ⟨r, hrB, hr⟩ := hh
        have h1 : (r.year == a.year) = true := ((Bool.and_eq_true _ _).mp hr).1
        exact (List.any_eq_false.mp hany) r hrB h1
    rw [htr, Bool.false_and]
    rfl
  cases rep with
  | false => simp [insert_race_results, hBnil]
  | true =>
    cases hB : B.isEmpty with
    | true => simp [insert_race_results, hB, hBnil]
    | false =>
      simp only [insert_race_results, hB, Bool.not_false, Bool.and_true, if_true]
      rw [List.filter_append, hBnil, List.append_nil]
      rw [List.filter_filter]
      apply List.filter_congr
      intro a ha
      cases hk : (!(B.any fun b => b.year == a.year)) with
      | false => simp [hk]
      | true => simp [hk, hq a hk]

end Diablo
namespace Diablo

/-! ## C2 — percentiles: storage layer vs analysis layer -/

/-- Counterexample to C2: on the chip times `[100, 200, 300, 400]` the
storage layer's nearest-rank p25 is `200` while the analysis layer's
interpolated p25 is `175`, so the two percentile paths are not equal. -/
theorem C2_counterexample :
    get_percentiles_by_year [100, 200, 300, 400] [25] = [(25, 200)]
    ∧ pandas_quantile [100, 200, 300, 400] (25 / 100) = 175
    ∧ (200 : ℚ) ≠ 175 := by
  refine ⟨?_, ?_, by norm_num⟩
  · norm_num [get_percentiles_by_year, sortAsc, insertSorted, List.getD]
  · norm_num [pandas_quantile, sortAsc, insertSorted, List.getD]

/-- Claim C2 amended: the two layers use different percentile
algorithms and disagree at finite sample sizes — exactly the divergence
flagged in spec §9.  The analysis layer interpolates linearly between
order statistics, giving (p25, median, p75) = (175, 250, 325) on
[100, 200, 300, 400]; the storage layer takes the nearest-rank value
`times[min(int(n*p/100), n-1)]`, giving (200, 300, 400). -/
theorem C2_amended :
    calculate_yearly_statistics_q [100, 200, 300, 400] = (175, 250, 325)
    ∧ get_percentiles_by_year [100, 200, 300, 400] [25, 50, 75]
        = [(25, 200), (50, 300), (75, 400)] := by
  constructor
  · norm_num [calculate_yearly_statistics_q, pandas_quantile, sortAsc,
      insertSorted, List.getD, show Int.toNat 2 = 2 from rfl]
  · norm_num [get_percentiles_by_year, sortAsc, insertSorted, List.getD]

end Diablo
namespace Diablo

/-! ## C8 — CorrelationCalculator -/

/-- Two fully-present columns pair up index-wise. -/
theorem valid_pairs_map_some (f : ℚ → ℚ) :
    ∀ xs : List ℚ,
      valid_pairs (xs.map some) ((xs.map f).map some)
        = xs.map fun x => (x, f x)
  | [] => rfl
  | x :: xs => by
    have ih := valid_pairs_map_some f xs
    simp only [valid_pairs, List.map_cons, List.zip_cons_cons,
      List.filterMap_cons] at ih ⊢
    rw [ih]

/-- Mapping a function of the pair over an index-paired list. -/
theorem map_pair_map (f : ℚ → ℚ) (g : ℚ × ℚ → ℚ) (h : ℚ → ℚ)
    (hg : ∀ x : ℚ, g (x, f x) = h x) :
    ∀ xs : List ℚ, ((xs.map fun x => (x, f x)).map g) = xs.map h
  | [] => rfl
  | x :: xs => by
    simp only [List.map_cons, map_pair_map f g h hg xs, hg]

/-- Sum of an affine image. -/
theorem sum_map_affine (a b : ℚ) :
    ∀ xs : List ℚ,
      (xs.map fun x => a + b * x).sum = xs.length * a + b * xs.sum
  | [] => by simp
  | x :: xs => by
    simp only [List.map_cons, List.sum_cons, sum_map_affine a b xs,
      List.length_cons]
    push_cast
    ring

/-- Sum of products with an affine image. -/
theorem sum_map_mul_affine (a b : ℚ) :
    ∀ xs : List ℚ,
      (xs.map fun x => x * (a + b * x)).sum
        = a * xs.sum + b * (xs.map fun x => x * x).sum
  | [] => by simp
  | x :: xs => by
    simp only [List.map_cons, List.sum_cons, sum_map_mul_affine a b xs]
    ring

/-- Sum of squared affine image. -/
theorem sum_map_affine_sq (a b : ℚ) :
    ∀ xs : List ℚ,
      (xs.map fun x => (a + b * x) * (a + b * x)).sum
        = xs.length * (a * a) + 2 * a * b * xs.sum
            + b * b * (xs.map fun x => x * x).sum
  | [] => by simp
  | x :: xs => by
    simp only [List.map_cons, List.sum_cons, sum_map_affine_sq a b xs,
      List.length_cons]
    push_cast
    ring

/-- A sum of squares is nonnegative. -/
theorem sum_map_sq_nonneg (c : ℚ) :
    ∀ xs : List ℚ, 0 ≤ (xs.map fun x => (x - c) * (x - c)).sum
  | [] => by simp
  | x :: xs => by
    have ih := sum_map_sq_nonneg c xs
    have hx := mul_self_nonneg (x - c)
    simp only [List.map_cons, List.sum_cons]
    linarith

/-- A sum of squares with one member off-centre is positive. -/
theorem sum_map_sq_pos (c u : ℚ) :
    ∀ xs : List ℚ, u ∈ xs → u ≠ c →
      0 < (xs.map fun x => (x - c) * (x - c)).sum
  | [], hmem, _ => by simp at hmem
  | x :: xs, hmem, hne => by
    simp only [List.map_cons, List.sum_cons]
    rcases List.mem_cons.mp hmem with rfl | hmem'
    · have h1 : 0 < (u - c) * (u - c) :=
        mul_self_pos.mpr (sub_ne_zero.mpr hne)
      have h2 := sum_map_sq_nonneg c xs
      linarith
    · have h1 := mul_self_nonneg (x - c)
      have h2 := sum_map_sq_pos c u xs hmem' hne
      linarith

/-- Expanding the centred sum of squares. -/
theorem sum_map_sq_shift (c : ℚ) :
    ∀ xs : List ℚ,
      (xs.map fun x => (x - c) * (x - c)).sum
        = (xs.map fun x => x * x).sum - 2 * c * xs.sum
            + xs.length * (c * c)
  | [] => by simp
  | x :: xs => by
    simp only [List.map_cons, List.sum_cons, sum_map_sq_shift c xs,
      List.length_cons]
    push_cast
    ring

/-- A list with two distinct members has length at least 2. -/
theorem two_le_length {α : Type} (xs : List α) (u v : α)
    (hu : u ∈ xs) (hv : v ∈ xs) (huv : u ≠ v) : 2 ≤ xs.length := by
  rcases xs with _ | ⟨a, _ | ⟨b, l⟩⟩
  · simp at hu
  · simp at hu hv
    exact absurd (hu.trans hv.symm) huv
  · simp [List.length_cons]

/-- Strict positivity of the uncentred variance numerator for a list
with two distinct members. -/
theorem centered_pos (xs : List ℚ) (u v : ℚ)
    (hu : u ∈ xs) (hv : v ∈ xs) (huv : u ≠ v) :
    0 < (xs.map fun x => x * x).sum - xs.sum * xs.sum / xs.length := by
  have h2 : 2 ≤ xs.length := two_le_length xs u v hu hv huv
  have hn : (0 : ℚ) < (xs.length : ℚ) := by
    have h0 : (0 : ℕ) < xs.length := by omega
    exact_mod_cast h0
  have hne : u ≠ xs.sum / xs.length ∨ v ≠ xs.sum / xs.length := by
    by_contra hcon
    push_neg at hcon
    exact huv (hcon.1.trans hcon.2.symm)
  have hpos : 0 < (xs.map fun x =>
      (x - xs.sum / xs.length) * (x - xs.sum / xs.length)).sum := by
    rcases hne with h | h
    · exact sum_map_sq_pos (xs.sum / xs.length) u xs hu h
    · exact sum_map_sq_pos (xs.sum / xs.length) v xs hv h
  rw [sum_map_sq_shift] at hpos
  have hkey : (xs.map fun x => x * x).sum
        - 2 * (xs.sum / xs.length) * xs.sum
        + (xs.length : ℚ) * (xs.sum / xs.length * (xs.sum / xs.length))
      = (xs.map fun x => x * x).sum - xs.sum * xs.sum / xs.length := by
    field_simp
    ring
  rw [hkey] at hpos
  exact hpos

/-- `c00` of the affine pair list: the sample variance of x. -/
theorem sampleCov_xx (a b : ℚ) (xs : List ℚ) :
    sampleCov (xs.map fun x => (x, a + b * x)) Prod.fst Prod.fst
      = ((xs.map fun x => x * x).sum - xs.sum * xs.sum / xs.length)
          / ((xs.length : ℚ) - 1) := by
  have hfst := (map_pair_map (fun x => a + b * x) Prod.fst id
    (fun _ => rfl) xs).trans (List.map_id xs)
  have hff := map_pair_map (fun x => a + b * x)
    (fun p => Prod.fst p * Prod.fst p) (fun x => x * x) (fun _ => rfl) xs
  simp only [sampleCov, hff, hfst, List.length_map]

/-- `c01` of the affine pair list. -/
theorem sampleCov_xy (a b : ℚ) (xs : List ℚ)
    (hn : (xs.length : ℚ) ≠ 0) :
    sampleCov (xs.map fun x => (x, a + b * x)) Prod.fst Prod.snd
      = b * sampleCov (xs.map fun x => (x, a + b * x)) Prod.fst Prod.fst := by
  have hfst := (map_pair_map (fun x => a + b * x) Prod.fst id
    (fun _ => rfl) xs).trans (List.map_id xs)
  have hsnd := map_pair_map (fun x => a + b * x) Prod.snd
    (fun x => a + b * x) (fun _ => rfl) xs
  have hfs := map_pair_map (fun x => a + b * x)
    (fun p => Prod.fst p * Prod.snd p) (fun x => x * (a + b * x))
    (fun _ => rfl) xs
  rw [sampleCov_xx]
  simp only [sampleCov, hfs, hfst, hsnd, List.length_map]
  rw [sum_map_mul_affine, sum_map_affine, ← mul_div_assoc]
  congr 1
  field_simp
  ring

/-- `c11` of the affine pair list. -/
theorem sampleCov_yy (a b : ℚ) (xs : List ℚ)
    (hn : (xs.length : ℚ) ≠ 0) :
    sampleCov (xs.map fun x => (x, a + b * x)) Prod.snd Prod.snd
      = b * b * sampleCov (xs.map fun x => (x, a + b * x)) Prod.fst Prod.fst := by
  have hfst := (map_pair_map (fun x => a + b * x) Prod.fst id
    (fun _ => rfl) xs).trans (List.map_id xs)
  have hsnd := map_pair_map (fun x => a + b * x) Prod.snd
    (fun x => a + b * x) (fun _ => rfl) xs
  have hss := map_pair_map (fun x => a + b * x)
    (fun p => Prod.snd p * Prod.snd p)
    (fun x => (a + b * x) * (a + b * x)) (fun _ => rfl) xs
  rw [sampleCov_xx]
  simp only [sampleCov, hss, hsnd, List.length_map]
  rw [sum_map_affine_sq, sum_map_affine, ← mul_div_assoc]
  congr 1
  field_simp
  ring

/-- Claim C8: the correlation is `none` (never an error — the model is
total) whenever fewer than two index pairs have both values present, in
particular for two length-2 series with one null; and two perfectly
linearly related series (positive slope, two distinct x values) give
exactly 1. -/
theorem C8_correlation :
    (∀ xs ys : List (Option ℚ),
      (valid_pairs xs ys).length < 2 → calculate_correlation xs ys = none)
    ∧ calculate_correlation [some 1, none] [some 2, some 3] = none
    ∧ ∀ (xs : List ℚ) (a b u v : ℚ), 0 < b → u ∈ xs → v ∈ xs → u ≠ v →
        calculate_correlation (xs.map some) ((xs.map fun x => a + b * x).map some)
          = some 1 := by
  refine ⟨?small, ?conc, ?lin⟩
  case small =>
    intro xs ys h
    simp only [calculate_correlation, if_pos h]
  case conc =>
    simp [calculate_correlation, valid_pairs]
  case lin =>
    intro xs a b u v hb hu hv huv
    have hvp := valid_pairs_map_some (fun x => a + b * x) xs
    have h2 : 2 ≤ xs.length := two_le_length xs u v hu hv huv
    have hnQ : (0 : ℚ) < (xs.length : ℚ) := by
      have h0 : (0 : ℕ) < xs.length := by omega
      exact_mod_cast h0
    have hn1 : (0 : ℚ) < (xs.length : ℚ) - 1 := by
      have h1 : (1 : ℚ) < (xs.length : ℚ) := by exact_mod_cast by omega
      linarith
    have hxy := sampleCov_xy a b xs (ne_of_gt hnQ)
    have hyy := sampleCov_yy a b xs (ne_of_gt hnQ)
    have hlen : ¬ (valid_pairs (xs.map some)
        ((xs.map fun x => a + b * x).map some)).length < 2 := by
      rw [hvp, List.length_map]
      omega
    simp only [calculate_correlation, if_neg hlen]
    have hq : 0 < sampleCov (xs.map fun x => (x, a + b * x))
        Prod.fst Prod.fst := by
      rw [sampleCov_xx]
      exact div_pos (centered_pos xs u v hu hv huv) hn1
    have hr : pearson_r (valid_pairs (xs.map some)
        ((xs.map fun x => a + b * x).map some)) = 1 := by
      rw [pearson_r, hvp, hxy, hyy]
      have hbR : (0 : ℝ) < (b : ℝ) := by exact_mod_cast hb
      have hqR : (0 : ℝ) < ((sampleCov (xs.map fun x => (x, a + b * x))
          Prod.fst Prod.fst : ℚ) : ℝ) := by exact_mod_cast hq
      push_cast
      rw [show (b : ℝ) * (b : ℝ) * ((sampleCov (xs.map fun x => (x, a + b * x))
            Prod.fst Prod.fst : ℚ) : ℝ)
          = ((b : ℝ) * (b : ℝ)) * ((sampleCov (xs.map fun x => (x, a + b * x))
            Prod.fst Prod.fst : ℚ) : ℝ) by ring]
      rw [Real.sqrt_mul (mul_self_nonneg (b : ℝ))]
      rw [Real.sqrt_mul_self hbR.le]
      rw [show Real.sqrt ((sampleCov (xs.map fun x => (x, a + b * x))
            Prod.fst Prod.fst : ℚ) : ℝ)
          * ((b : ℝ) * Real.sqrt ((sampleCov (xs.map fun x => (x, a + b * x))
            Prod.fst Prod.fst : ℚ) : ℝ))
          = (b : ℝ) * (Real.sqrt ((sampleCov (xs.map fun x => (x, a + b * x))
            Prod.fst Prod.fst : ℚ) : ℝ)
            * Real.sqrt ((sampleCov (xs.map fun x => (x, a + b * x))
            Prod.fst Prod.fst : ℚ) : ℝ)) by ring]
      rw [Real.mul_self_sqrt hqR.le]
      exact div_self (ne_of_gt (mul_pos hbR hqR))
    rw [hr]
    have hround : round3 (1 : ℝ) = 1 := by
      rw [round3, one_mul]
      rw [show (1000 : ℝ) = ((1000 : ℤ) : ℝ) by norm_num, round_intCast]
      norm_num
    rw [hround]

/-- Witness for C8: the undefined case on two empty series, and the
perfectly-correlated case on the concrete series x = [0, 1], y = x. -/
theorem C8_witness :
    calculate_correlation [] [] = none
    ∧ calculate_correlation [some 0, some 1] [some 0, some 1] = some 1 := by
  constructor
  · exact C8_correlation.1 [] [] (by simp [valid_pairs])
  · have h := C8_correlation.2.2 [0, 1] 0 1 0 1 one_pos (by simp) (by simp)
      (by norm_num)
    have e : ((([0, 1] : List ℚ).map fun x => 0 + 1 * x).map some)
        = [some 0, some 1] := by norm_num
    rw [e] at h
    exact h

end Diablo
